import Mathlib

/-!
Shallow embedding of `evaluation/evaluation.py` (SpreadsheetBench evaluation
script) and proofs about its cell-comparison logic.

Modelling conventions:
* Python floats are idealised as exact rationals (`ℚ`); `round` is round-half-
  to-even on rationals.  IEEE-754 artefacts (nan, inf, binary rounding noise)
  are outside the model.
* Python strings are Lean `String`s; character-level operations work on
  `String.data`.
* Fallible Python operations (unpacking errors, `int("")`, `KeyError`,
  unbound locals) are modelled with `Except String`.
-/

deriving instance DecidableEq for Except

/-- Python's `round` to the nearest integer, ties to even (`round(q)` semantics
on an exact rational). -/
def roundHalfEven (q : ℚ) : ℤ :=
  let f : ℤ := ⌊q⌋
  let r : ℚ := q - f
  if r < 1/2 then f
  else if 1/2 < r then f + 1
  else if f % 2 = 0 then f else f + 1

/-- Python's `round(q, n)`: round to `n` decimal places, ties to even. -/
def pyRound (q : ℚ) (n : ℕ) : ℚ :=
  (roundHalfEven (q * 10 ^ n) : ℚ) / 10 ^ n

def isDigitChar (c : Char) : Bool := '0' ≤ c && c ≤ '9'

def isSpaceChar (c : Char) : Bool :=
  c = ' ' || c = '\t' || c = '\n' || c = '\r'

/-- Numeric value of a list of decimal digit characters (most significant
first), as read left to right. -/
def digitsVal (l : List Char) : ℕ :=
  l.foldl (fun a c => a * 10 + (c.toNat - 48)) 0

/-- Exponent part of a Python float literal: optional sign then digits.
`m` is the already-parsed mantissa. -/
def parsePyFloatExp (m : ℚ) (l : List Char) : Option ℚ :=
  let (es, l2) : ℤ × List Char :=
    match l with
    | '+' :: t => (1, t)
    | '-' :: t => (-1, t)
    | t => (1, t)
  if l2 ≠ [] ∧ l2.all isDigitChar then
    some (m * (10 : ℚ) ^ (es * (digitsVal l2 : ℤ)))
  else none

/-- Models Python's built-in `float(s)` on finite decimal literals:
optional surrounding whitespace, optional sign, digits with an optional
fractional part and an optional exponent.  `inf`, `nan` and underscore digit
separators are not modelled. -/
def parsePyFloat (s : String) : Option ℚ :=
  let l0 := (s.data.dropWhile isSpaceChar).reverse.dropWhile isSpaceChar |>.reverse
  let (sgn, l) : ℚ × List Char :=
    match l0 with
    | '+' :: t => (1, t)
    | '-' :: t => (-1, t)
    | t => (1, t)
  let intPart := l.takeWhile isDigitChar
  let rest := l.dropWhile isDigitChar
  match rest with
  | [] => if intPart = [] then none else some (sgn * digitsVal intPart)
  | '.' :: r2 =>
    let fracPart := r2.takeWhile isDigitChar
    let rest2 := r2.dropWhile isDigitChar
    if intPart = [] ∧ fracPart = [] then none
    else
      let mant : ℚ := (digitsVal intPart : ℚ) +
        (digitsVal fracPart : ℚ) / 10 ^ fracPart.length
      match rest2 with
      | [] => some (sgn * mant)
      | e :: r3 =>
        if e = 'e' ∨ e = 'E' then parsePyFloatExp (sgn * mant) r3 else none
  | e :: r3 =>
    if (e = 'e' ∨ e = 'E') ∧ intPart ≠ [] then
      parsePyFloatExp (sgn * (digitsVal intPart : ℚ)) r3
    else none

/-- Raw cell values as handed over by the spreadsheet reader: `None`, bools,
ints, floats, `datetime.time`, `datetime.datetime`, strings.
A `datetime.time` carries hour/minute/second/microsecond; a
`datetime.datetime` is represented by its proleptic-Gregorian ordinal day
(`toordinal`), its second-of-day and its microsecond (calendar-to-ordinal
conversion itself is not modelled). -/
inductive RawValue where
  | none
  | bool (b : Bool)
  | int (n : ℤ)
  | float (q : ℚ)
  | time (hh mm ss us : ℕ)
  | datetime (ord : ℤ) (sec : ℕ) (us : ℕ)
  | strv (s : String)
  deriving DecidableEq

/-- Normalized cell values after `transform_value`: Python `None`, a float, or
a string (every other raw shape is coerced to one of these). -/
inductive NormValue where
  | none
  | float (q : ℚ)
  | strv (s : String)
  deriving DecidableEq

/-- Python runtime type tag of a normalized value (`type(v)`). -/
def normTag : NormValue → ℕ
  | .none => 0
  | .float _ => 1
  | .strv _ => 2

/-- Zero-pad a natural number's decimal rendering to width `w`. -/
def padNum (w : ℕ) (n : ℕ) : String :=
  let s := toString n
  ⟨List.replicate (w - s.data.length) '0' ++ s.data⟩

/-- Python's `str()` of a `datetime.time`: `HH:MM:SS`, with `.ffffff`
appended when the microsecond field is nonzero. -/
def pyTimeStr (hh mm ss us : ℕ) : String :=
  padNum 2 hh ++ ":" ++ padNum 2 mm ++ ":" ++ padNum 2 ss ++
    (if us = 0 then "" else "." ++ padNum 6 us)

/-- `datetime.datetime(1899, 12, 30).toordinal()`. -/
def excel_start_ordinal : ℤ := 693594

/-- `datetime_to_float(dt)`: `delta = dt - datetime(1899,12,30)`;
`delta.days + delta.seconds / 86400.0`.  Python's `timedelta` normalizes to
`days` (floored) and a nonnegative `seconds` in `[0, 86400)`, with
microseconds kept separately (and hence dropped by this formula). -/
def datetime_to_float (ord : ℤ) (sec : ℕ) (us : ℕ) : ℚ :=
  let total_us : ℤ := ((ord - excel_start_ordinal) * 86400 + (sec : ℤ)) * 1000000 + (us : ℤ)
  let days : ℤ := total_us.fdiv 86400000000
  let seconds : ℤ := total_us.emod 86400000000 / 1000000
  (days : ℚ) + (seconds : ℚ) / 86400

/-- `transform_value(v)` from the source: ints/floats (and bools, which are
ints in Python) are rounded to 2 decimals; times are rendered and the last 3
characters dropped; datetimes become the epoch day offset rounded to 0
decimals; strings are parsed as floats when possible, else left unchanged;
`None` passes through. -/
def transform_value : RawValue → NormValue
  | .none => .none
  | .bool b => .float (pyRound (if b then 1 else 0) 2)
  | .int n => .float (pyRound (n : ℚ) 2)
  | .float q => .float (pyRound q 2)
  | .time hh mm ss us => .strv ((pyTimeStr hh mm ss us).dropRight 3)
  | .datetime ord sec us => .float (pyRound (datetime_to_float ord sec us) 0)
  | .strv s =>
    match parsePyFloat s with
    | some q => .float (pyRound q 2)
    | Option.none => .strv s

/-- `compare_cell_value(v1, v2)` from the source: transform both, unify
empty-string/`None`, then require equal runtime types and equal values. -/
def compare_cell_value (a b : RawValue) : Bool :=
  let v1 := transform_value a
  let v2 := transform_value b
  if (v1 = .strv "" ∧ v2 = .none) ∨ (v1 = .none ∧ v2 = .strv "") then true
  else if (v1 = .strv "" ∧ v2 = .strv "") ∨ (v1 = .none ∧ v2 = .none) then true
  else if normTag v1 ≠ normTag v2 then false
  else if v1 = v2 then true
  else false

/-- The spec's equality rule on already-normalized values, written from the
spec's own bullet list (refinement target for C1): empty-string vs absent in
either order is equal; both-empty or both-absent is equal; differing
normalized types are unequal; otherwise structural equality. -/
def valuesEqualSpec (v1 v2 : NormValue) : Bool :=
  if (v1 = .strv "" ∧ v2 = .none) ∨ (v1 = .none ∧ v2 = .strv "") then true
  else if (v1 = .strv "" ∧ v2 = .strv "") ∨ (v1 = .none ∧ v2 = .none) then true
  else if normTag v1 ≠ normTag v2 then false
  else decide (v1 = v2)

/-- Loop body of `col_num2name` (`while n > 0: n, remainder = divmod(n - 1, 26)`,
prepending `chr(65 + remainder)`), embedded with explicit fuel.  Fuel `n`
always suffices because the loop variable strictly decreases each pass. -/
def col_num2name_go : ℕ → ℕ → List Char
  | 0, _ => []
  | _ + 1, 0 => []
  | fuel + 1, n + 1 => col_num2name_go fuel (n / 26) ++ [Char.ofNat (65 + n % 26)]

/-- `col_num2name(n)`: convert a column number to an Excel column name. -/
def col_num2name (n : ℕ) : String := ⟨col_num2name_go n n⟩

/-- Fold body of `col_name2num`: `num = num * 26 + (ord(c) - ord("A") + 1)`. -/
def col_name2num_go (acc : ℕ) : List Char → ℕ
  | [] => acc
  | c :: cs => col_name2num_go (acc * 26 + (c.toNat - 65 + 1)) cs

/-- `col_name2num(name)`: convert an Excel column name to a column number. -/
def col_name2num (s : String) : ℕ := col_name2num_go 0 s.data

/-- The `rgb` attribute of a spreadsheet color object: either an actual
string, or some non-string value (absent rgb, descriptor object, ...). -/
inductive RGBVal where
  | strv (s : String)
  | nonstr
  deriving DecidableEq

/-- A color object as exposed by the spreadsheet library. -/
structure PyColor where
  rgb : RGBVal
  deriving DecidableEq

/-- Python's `s[-6:]`: the last 6 characters (the whole string when shorter). -/
def pyLast6 (s : String) : String := ⟨s.data.drop (s.data.length - 6)⟩

/-- `_get_color_rgb(color)`: the color's `rgb` when the color is present
(truthy) and its `rgb` is a string, else the default `"00000000"`. -/
def _get_color_rgb : Option PyColor → String
  | some c =>
    match c.rgb with
    | .strv s => s
    | .nonstr => "00000000"
  | none => "00000000"

/-- `_compare_colors(color1, color2)`: compare only the last 6 characters
(RGB) of the two extracted rgb strings. -/
def _compare_colors (color1 color2 : Option PyColor) : Bool :=
  pyLast6 (_get_color_rgb color1) = pyLast6 (_get_color_rgb color2)

/-- Fill style of a cell: foreground and background color objects. -/
structure PyFill where
  fgColor : Option PyColor
  bgColor : Option PyColor
  deriving DecidableEq

/-- Font style of a cell: its color object. -/
structure PyFont where
  color : Option PyColor
  deriving DecidableEq

/-- `compare_fill_color(fill1, fill2)`. -/
def compare_fill_color (fill1 fill2 : PyFill) : Bool :=
  _compare_colors fill1.fgColor fill2.fgColor &&
    _compare_colors fill1.bgColor fill2.bgColor

/-- `compare_font_color(font_gt, font_proc)`. -/
def compare_font_color (font_gt font_proc : PyFont) : Bool :=
  _compare_colors font_gt.color font_proc.color

/-- Python's `s.split(sep)` for a one-character separator: splits at every
occurrence; `"".split(sep)` yields `[""]`. -/
def splitOnChar (sep : Char) : List Char → List (List Char)
  | [] => [[]]
  | c :: cs =>
    let r := splitOnChar sep cs
    if c = sep then [] :: r
    else
      match r with
      | [] => [[c]]
      | h :: t => (c :: h) :: t

/-- Python's `int(s)` on a string of decimal digits: errors on the empty
string, else the numeric value. -/
def pyIntDigits (l : List Char) : Except String ℕ :=
  if l = [] then .error "ValueError: invalid literal for int() with base 10"
  else .ok (digitsVal l)

/-- `parse_cell_range(range_str)` from the source: split on a single `:`
(unpacking error otherwise), classify each endpoint's characters into a digit
run (row) and a non-digit run (column), convert the column with
`col_name2num` (which maps an empty run to 0 without error) and the row with
`int` (which errors on an empty run). -/
def parse_cell_range (range_str : String) : Except String ((ℕ × ℕ) × (ℕ × ℕ)) :=
  match splitOnChar ':' range_str.data with
  | [start_cell, end_cell] =>
    let start_row := start_cell.filter isDigitChar
    let start_col := start_cell.filter fun c => !isDigitChar c
    let end_row := end_cell.filter isDigitChar
    let end_col := end_cell.filter fun c => !isDigitChar c
    match pyIntDigits start_row with
    | .error e => .error e
    | .ok sr =>
      match pyIntDigits end_row with
      | .error e => .error e
      | .ok er => .ok ((col_name2num_go 0 start_col, sr), (col_name2num_go 0 end_col, er))
  | _ => .error "ValueError: not enough values to unpack"

/-- `generate_cell_names(range_str)` from the source: a degenerate range
without `:` is returned as a one-element list; otherwise the parsed rectangle
is enumerated column-major (`f"{col}{row}"` for each column then each row). -/
def generate_cell_names (range_str : String) : Except String (List String) :=
  if ':' ∉ range_str.data then .ok [range_str]
  else
    match parse_cell_range range_str with
    | .error e => .error e
    | .ok ((start_col, start_row), (end_col, end_row)) =>
      let columns := (List.range' start_col (end_col + 1 - start_col)).map col_num2name
      .ok (columns.flatMap fun col =>
        (List.range' start_row (end_row + 1 - start_row)).map fun row =>
          col ++ toString row)

/-- Approximate `str()` rendering of a raw value for diagnostic messages
(Python's float repr is approximated by the rational's representation; no
claim inspects these renderings). -/
def pyStr : RawValue → String
  | .none => "None"
  | .bool b => if b then "True" else "False"
  | .int n => toString n
  | .float q => toString q.num ++ "/" ++ toString q.den
  | .time hh mm ss us => pyTimeStr hh mm ss us
  | .datetime ord sec us => toString ord ++ "+" ++ toString sec ++ "." ++ toString us
  | .strv s => s

/-- Approximate rendering of the `{color.rgb}` f-string interpolation in the
fill-color message (non-string rgb objects render opaquely; no claim inspects
this rendering). -/
def rgbAttrStr : Option PyColor → String
  | some c =>
    match c.rgb with
    | .strv s => s
    | .nonstr => "None"
  | none => "None"

/-- A cell as read from a worksheet: value, fill style, font style. -/
structure PyCell where
  value : RawValue
  fill : PyFill
  font : PyFont

/-- A worksheet: cell lookup by cell name.  (The spreadsheet library's
coordinate validation is not modelled: lookup is total.) -/
structure Worksheet where
  cells : String → PyCell

/-- A workbook: an ordered association of sheet names to worksheets.
`sheet_name in wb` is name membership; `wb[sheet_name]` is lookup (a
`KeyError` — modelled as an error — when absent). -/
structure Workbook where
  sheets : List (String × Worksheet)

def Workbook.lookup (wb : Workbook) (name : String) : Option Worksheet :=
  (wb.sheets.find? fun p => p.1 = name).map Prod.snd

def Workbook.sheetnames (wb : Workbook) : List String :=
  wb.sheets.map Prod.fst

/-- Loop body of `cell_level_compare` for one cell: value comparison first
(with a message naming the cell and both raw values), then — only when
`is_CF` — fill colors, then font color.  `none` means the cell passes;
`some msg` is the failure message. -/
def compare_one_cell (cell_gt cell_proc : PyCell) (coordinate : String)
    (is_CF : Bool) : Option String :=
  if ¬ compare_cell_value cell_gt.value cell_proc.value then
    some ("Value difference at cell " ++ coordinate ++ ": ws_gt has " ++
      pyStr cell_gt.value ++ ",                    ws_proc has " ++
      pyStr cell_proc.value)
  else if is_CF ∧ ¬ compare_fill_color cell_gt.fill cell_proc.fill then
    some ("Fill color difference at cell " ++ coordinate ++ ": ws_gt has " ++
      rgbAttrStr cell_gt.fill.fgColor ++ ",                        ws_proc has " ++
      rgbAttrStr cell_proc.fill.fgColor)
  else if is_CF ∧ ¬ compare_font_color cell_gt.font cell_proc.font then
    some ("Font color difference at cell " ++ coordinate)
  else none

/-- `cell_level_compare(wb_gt, wb_proc, sheet_name, cell_range, is_CF)` from
the source: missing sheet in the produced workbook short-circuits to
`(False, "worksheet not found")`; the ground-truth workbook is indexed
without such a check (a `KeyError` when absent); then every enumerated cell
is compared in order, returning the first failure, else `(True, "")`. -/
def cell_level_compare (wb_gt wb_proc : Workbook) (sheet_name cell_range : String)
    (is_CF : Bool) : Except String (Bool × String) :=
  match wb_proc.lookup sheet_name with
  | none => .ok (false, "worksheet not found")
  | some ws_proc =>
    match wb_gt.lookup sheet_name with
    | none => .error "KeyError: worksheet does not exist"
    | some ws_gt =>
      match generate_cell_names cell_range with
      | .error e => .error e
      | .ok cell_names =>
        match cell_names.findSome? (fun nm =>
            compare_one_cell (ws_gt.cells nm) (ws_proc.cells nm) nm is_CF) with
        | some msg => .ok (false, msg)
        | none => .ok (true, "")

/-- One iteration of the `answer_position` loop in `compare_workbooks`:
a segment containing `!` is unpacked into sheet and range (a `ValueError`
unless it splits into exactly two parts), the sheet stripped of surrounding
single quotes; otherwise the sheet is the ground-truth workbook's first sheet
name (an `IndexError` when it has none) and the whole segment is the range. -/
def segment_sheet_range (wb_gt : Workbook) (seg : List Char) :
    Except String (String × String) :=
  if '!' ∈ seg then
    match splitOnChar '!' seg with
    | [a, b] =>
      .ok (⟨((a.dropWhile fun c => c = Char.ofNat 39).reverse.dropWhile
        fun c => c = Char.ofNat 39).reverse⟩, ⟨b⟩)
    | _ => .error "ValueError: values to unpack"
  else
    match wb_gt.sheetnames with
    | [] => .error "IndexError: sheetnames is empty"
    | s0 :: _ => .ok (s0, ⟨seg⟩)

/-- The `for sheet_cell_range in sheet_cell_ranges` loop: every segment is
processed (so an error in any earlier segment still raises), but only the
final iteration's `(sheet_name, cell_range)` binding survives the loop. -/
def last_segment_binding (wb_gt : Workbook) : List (List Char) →
    Except String (String × String)
  | [] => .error "NameError: sheet_name is not bound"
  | [seg] => segment_sheet_range wb_gt seg
  | seg :: rest =>
    match segment_sheet_range wb_gt seg with
    | .error e => .error e
    | .ok _ => last_segment_binding wb_gt rest

/-- The comparison core of `compare_workbooks` (file opening is external
I/O): split `answer_position` on commas, run the sheet/range binding loop,
and compare only the binding left by its final iteration. -/
def compare_workbooks_core (wb_gt wb_proc : Workbook) (is_CF : Bool)
    (answer_position : String) : Except String (Bool × String) :=
  match last_segment_binding wb_gt (splitOnChar ',' answer_position.data) with
  | .error e => .error e
  | .ok (sheet_name, cell_range) =>
    cell_level_compare wb_gt wb_proc sheet_name cell_range is_CF

/-- Outcome of `compare_workbooks` for one task, as seen by the `evaluation`
loop: the produced file is missing, the call returns `(result, message)`, or
the call raises. -/
inductive TaskComparison where
  | missingFile
  | returns (result : Bool) (message : String)
  | raises

/-- One entry of `eval_results`: `result` is `none` for a missing file
(JSON `null`), and `message` the recorded diagnostic. -/
structure TaskRecord where
  result : Option Bool
  message : String
  deriving DecidableEq

/-- The per-task loop of `evaluation`, with the local variable `message`
modelled explicitly (`none` = not yet bound).  A missing file records a
distinguished entry without touching `message`; a returning comparison binds
`message` and records it when failing; a raising comparison sets
`result = False` but leaves `message` untouched — recording whatever binding
is current, and raising `NameError` when there is none. -/
def evaluation_records (msgVar : Option String) :
    List TaskComparison → Except String (List TaskRecord)
  | [] => .ok []
  | t :: ts =>
    match t with
    | .missingFile =>
      match evaluation_records msgVar ts with
      | .error e => .error e
      | .ok rs => .ok (⟨none, "Output file not found"⟩ :: rs)
    | .returns r m =>
      match evaluation_records (some m) ts with
      | .error e => .error e
      | .ok rs => .ok (⟨some r, if r then "" else m⟩ :: rs)
    | .raises =>
      match msgVar with
      | none => .error "NameError: name message is not defined"
      | some m =>
        match evaluation_records (some m) ts with
        | .error e => .error e
        | .ok rs => .ok (⟨some false, m⟩ :: rs)

/-- The spec's rectangle enumeration, written from the spec's words (C7
refinement target): for each column from `startCol` to `endCol` ascending,
for each row from `startRow` to `endRow` ascending, the cell name is the
column name followed by the row number. -/
def specRectangle (sc sr ec er : ℕ) : List String :=
  (List.range' sc (ec + 1 - sc)).flatMap fun c =>
    (List.range' sr (er + 1 - sr)).map fun r => col_num2name c ++ toString r

/-- The spec's epoch day-offset formula, written from the spec's words (C6
refinement target): the whole-day difference from 1899-12-30T00:00:00 plus
the remaining whole seconds divided by 86400. -/
def specEpochDayOffset (ord : ℤ) (sec : ℕ) (us : ℕ) : ℚ :=
  let deltaUs : ℤ := ((ord - excel_start_ordinal) * 86400 + (sec : ℤ)) * 1000000 + (us : ℤ)
  let wholeDays : ℤ := deltaUs.fdiv 86400000000
  let remSeconds : ℤ := deltaUs.emod 86400000000 / 1000000
  (wholeDays : ℚ) + (remSeconds : ℚ) / 86400

/-- A worksheet whose cells are all blank, for concrete instantiations. -/
def blankSheet : Worksheet := ⟨fun _ => ⟨.none, ⟨none, none⟩, ⟨none⟩⟩⟩

/-- A worksheet whose every cell holds the given string value. -/
def constStrSheet (v : String) : Worksheet := ⟨fun _ => ⟨.strv v, ⟨none, none⟩, ⟨none⟩⟩⟩

/-- C1: `compare_cell_value` first normalizes both sides with
`transform_value` and then applies exactly the spec's equality rule
(empty-string/absent unify, differing normalized types are unequal, otherwise
structural equality); in particular `valuesEqual("", None)`,
`valuesEqual("5", 5)` and `valuesEqual(5, 5.004)` are true while
`valuesEqual("abc", 0)` and `valuesEqual(5, 5.006)` are false. -/
theorem claim_C1 :
    (∀ a b : RawValue, compare_cell_value a b =
      valuesEqualSpec (transform_value a) (transform_value b)) ∧
    compare_cell_value (.strv "") .none = true ∧
    compare_cell_value (.strv "5") (.int 5) = true ∧
    compare_cell_value (.strv "abc") (.int 0) = false ∧
    compare_cell_value (.int 5) (.float (5004/1000)) = true ∧
    compare_cell_value (.int 5) (.float (5006/1000)) = false := by
  refine ⟨fun a b => ?_, by decide, by with_unfolding_all decide, by decide,
    by with_unfolding_all decide, by with_unfolding_all decide⟩
  simp only [compare_cell_value, valuesEqualSpec]
  split_ifs <;> simp_all

lemma col_num2name_go_fuel : ∀ (f1 f2 n : ℕ), n ≤ f1 → n ≤ f2 →
    col_num2name_go f1 n = col_num2name_go f2 n := by
  intro f1
  induction f1 with
  | zero =>
    intro f2 n h1 _
    have hn : n = 0 := Nat.le_zero.mp h1
    subst hn
    cases f2 <;> rfl
  | succ g1 ih =>
    intro f2 n h1 h2
    cases n with
    | zero => cases f2 <;> rfl
    | succ m =>
      cases f2 with
      | zero => omega
      | succ g2 =>
        simp only [col_num2name_go]
        rw [ih g2 (m / 26) (le_trans (Nat.div_le_self m 26) (by omega))
          (le_trans (Nat.div_le_self m 26) (by omega))]

lemma col_num2name_go_succ (n : ℕ) :
    col_num2name_go (n + 1) (n + 1) =
      col_num2name_go (n / 26) (n / 26) ++ [Char.ofNat (65 + n % 26)] := by
  simp only [col_num2name_go]
  rw [col_num2name_go_fuel n (n / 26) (n / 26) (Nat.div_le_self n 26) le_rfl]

lemma char_ofNat_toNat_upper (r : ℕ) (h : r < 26) :
    (Char.ofNat (65 + r)).toNat = 65 + r := by
  interval_cases r <;> decide

lemma col_name2num_go_append (l1 l2 : List Char) : ∀ acc,
    col_name2num_go acc (l1 ++ l2) = col_name2num_go (col_name2num_go acc l1) l2 := by
  induction l1 with
  | nil => intro acc; rfl
  | cons c cs ih =>
    intro acc
    simp only [List.cons_append, col_name2num_go]
    exact ih _

lemma col_name2num_go_num2name (n : ℕ) : ∀ acc,
    col_name2num_go acc (col_num2name_go n n) =
      acc * 26 ^ (col_num2name_go n n).length + n := by
  induction n using Nat.strong_induction_on with
  | _ n ih =>
    intro acc
    cases n with
    | zero => simp [col_num2name_go, col_name2num_go]
    | succ m =>
      rw [col_num2name_go_succ, col_name2num_go_append,
        ih (m / 26) (Nat.lt_succ_of_le (Nat.div_le_self m 26)) acc]
      simp only [col_name2num_go, List.length_append, List.length_singleton]
      rw [char_ofNat_toNat_upper (m % 26) (Nat.mod_lt m (by omega))]
      have hm : 26 * (m / 26) + m % 26 = m := Nat.div_add_mod m 26
      rw [pow_succ]
      rw [← Nat.mul_assoc]
      set Q : ℕ := acc * 26 ^ (col_num2name_go (m / 26) (m / 26)).length with hQ
      omega

/-- C2: for every positive column number `n`, converting to a letter name and
back is the identity, and the encoding is the bijective base-26 one with
`A = 1`, `Z = 26`, `AA = 27`. -/
theorem claim_C2 (n : ℕ) (h : 1 ≤ n) :
    col_name2num (col_num2name n) = n ∧
    col_num2name 1 = "A" ∧ col_num2name 26 = "Z" ∧ col_num2name 27 = "AA" := by
  refine ⟨?_, by decide, by decide, by decide⟩
  show col_name2num_go 0 (col_num2name_go n n) = n
  rw [col_name2num_go_num2name n 0]
  simp

/-- Witness for C2 at `n = 20000`. -/
theorem claim_C2_witness : col_name2num (col_num2name 20000) = 20000 :=
  (claim_C2 20000 (by decide)).1

lemma pyLast6_append (a r : String) (hr : r.length = 6) : pyLast6 (a ++ r) = r := by
  obtain ⟨la⟩ := a
  obtain ⟨lr⟩ := r
  have hlr : lr.length = 6 := hr
  show (⟨(la ++ lr).drop ((la ++ lr).length - 6)⟩ : String) = ⟨lr⟩
  congr 1
  rw [List.length_append, hlr, Nat.add_sub_cancel, List.drop_left]

/-- C3: `_compare_colors` looks only at the last 6 characters of the
extracted rgb strings, so the two leading alpha characters never change the
verdict; `colorsEqual("00FF0000", "FFFF0000")` is true, two absent colors
compare equal, and in general the verdict is exactly equality of the last-6
substrings of `_get_color_rgb`. -/
theorem claim_C3 (a1 a2 r : String) (hr : r.length = 6) :
    _compare_colors (some ⟨.strv (a1 ++ r)⟩) (some ⟨.strv (a2 ++ r)⟩) = true ∧
    _compare_colors (some ⟨.strv "00FF0000"⟩) (some ⟨.strv "FFFF0000"⟩) = true ∧
    _compare_colors none none = true ∧
    (∀ c1 c2 : Option PyColor, _compare_colors c1 c2 = true ↔
      pyLast6 (_get_color_rgb c1) = pyLast6 (_get_color_rgb c2)) := by
  refine ⟨?_, by decide, by decide, fun c1 c2 => by simp [_compare_colors]⟩
  simp only [_compare_colors, _get_color_rgb, decide_eq_true_eq]
  rw [pyLast6_append a1 r hr, pyLast6_append a2 r hr]

/-- Witness for C3 with alpha bytes `00` vs `FF` on rgb `FF0000`. -/
theorem claim_C3_witness :
    _compare_colors (some ⟨.strv ("00" ++ "FF0000")⟩)
      (some ⟨.strv ("FF" ++ "FF0000")⟩) = true :=
  (claim_C3 "00" "FF" "FF0000" (by decide)).1

/-- C7: a range string without `:` enumerates as the one-element list holding
the input unchanged; a parsed `start:end` range enumerates the full inclusive
rectangle in column-major order (columns ascending, rows ascending within a
column), and concretely `"A1:B2"` enumerates as `A1, A2, B1, B2`. -/
theorem claim_C7 (s : String) (hs : ':' ∉ s.data) :
    generate_cell_names s = .ok [s] ∧
    generate_cell_names "A1:B2" = .ok ["A1", "A2", "B1", "B2"] ∧
    (∀ (t : String) (sc sr ec er : ℕ), ':' ∈ t.data →
      parse_cell_range t = .ok ((sc, sr), (ec, er)) →
      generate_cell_names t = .ok (specRectangle sc sr ec er)) := by
  refine ⟨by simp [generate_cell_names, hs], by decide, ?_⟩
  intro t sc sr ec er hmem hp
  simp only [generate_cell_names, hp]
  rw [if_neg (not_not_intro hmem)]
  simp only [specRectangle, List.flatMap_map]

/-- Witness for C7 on the degenerate range `"A1"`. -/
theorem claim_C7_witness : generate_cell_names "A1" = .ok ["A1"] :=
  (claim_C7 "A1" (by decide)).1

/-- C8 counterexample: the endpoint `"1"` of `"1:B2"` has no letter run, yet
`parse_cell_range` succeeds (with column number 0) instead of failing as the
claim states. -/
theorem claim_C8_counterexample : parse_cell_range "1:B2" = .ok ((0, 1), (2, 2)) := by
  decide

/-- C8 (amended): for a range string splitting into exactly two endpoints,
`parse_cell_range` fails with a parse error exactly when either endpoint
lacks a run of digits; a missing letter run does not fail — it yields column
number 0. -/
theorem claim_C8 (s : String) (a b : List Char)
    (hsplit : splitOnChar ':' s.data = [a, b]) :
    ((∃ e, parse_cell_range s = .error e) ↔
      (a.filter isDigitChar = [] ∨ b.filter isDigitChar = [])) ∧
    (a.filter (fun c => !isDigitChar c) = [] →
      ∀ sc sr ec er, parse_cell_range s = .ok ((sc, sr), (ec, er)) → sc = 0) := by
  constructor
  · simp only [parse_cell_range, hsplit, pyIntDigits]
    by_cases ha : a.filter isDigitChar = [] <;>
      by_cases hb : b.filter isDigitChar = [] <;> simp [ha, hb]
  · intro hcol sc sr ec er hok
    simp only [parse_cell_range, hsplit, pyIntDigits] at hok
    by_cases ha : a.filter isDigitChar = []
    · simp [ha] at hok
    · by_cases hb : b.filter isDigitChar = []
      · simp [ha, hb] at hok
      · simp only [if_neg ha, if_neg hb, Except.ok.injEq, Prod.mk.injEq] at hok
        rw [← hok.1.1, hcol]
        rfl

/-- Witness for C8 on the well-formed range `"A1:B2"`. -/
theorem claim_C8_witness :
    ((∃ e, parse_cell_range "A1:B2" = .error e) ↔
      (['A', '1'].filter isDigitChar = [] ∨ ['B', '2'].filter isDigitChar = [])) ∧
    (['A', '1'].filter (fun c => !isDigitChar c) = [] →
      ∀ sc sr ec er, parse_cell_range "A1:B2" = .ok ((sc, sr), (ec, er)) → sc = 0) :=
  claim_C8 "A1:B2" ['A', '1'] ['B', '2'] (by decide)

/-- C10 counterexample: the produced workbook does contain sheet `"S"` and the
range `"B1:A1"` is inverted, yet `cell_level_compare` does not return
`(true, "")` — the ground-truth workbook lacks the sheet and the unguarded
ground-truth indexing raises. -/
theorem claim_C10_counterexample :
    cell_level_compare ⟨[]⟩ ⟨[("S", blankSheet)]⟩ "S" "B1:A1" true =
      .error "KeyError: worksheet does not exist" := by
  decide

/-- C10 (amended): for a parsed range whose start column exceeds its end
column or whose start row exceeds its end row, `generate_cell_names` yields
the empty list, and `cell_level_compare` returns `(true, "")` whenever the
named sheet is present in the produced workbook and in the ground-truth
workbook, regardless of any cell contents. -/
theorem claim_C10 (wb_gt wb_proc : Workbook) (sn r : String) (cf : Bool)
    (sc sr ec er : ℕ) (ws_proc ws_gt : Worksheet)
    (hcolon : ':' ∈ r.data)
    (hp : parse_cell_range r = .ok ((sc, sr), (ec, er)))
    (hlt : ec < sc ∨ er < sr)
    (hproc : wb_proc.lookup sn = some ws_proc)
    (hgt : wb_gt.lookup sn = some ws_gt) :
    generate_cell_names r = .ok [] ∧
    cell_level_compare wb_gt wb_proc sn r cf = .ok (true, "") := by
  have hgen : generate_cell_names r = .ok [] := by
    simp only [generate_cell_names, hp]
    rw [if_neg (not_not_intro hcolon)]
    rcases hlt with h | h
    · have h0 : ec + 1 - sc = 0 := by omega
      simp [h0]
    · have h0 : er + 1 - sr = 0 := by omega
      simp [h0]
  refine ⟨hgen, ?_⟩
  simp only [cell_level_compare, hproc, hgt, hgen]
  rfl

/-- Witness for C10 on the inverted range `"B1:A1"` with sheet `"S"` present
in both workbooks. -/
theorem claim_C10_witness :
    generate_cell_names "B1:A1" = .ok [] ∧
    cell_level_compare ⟨[("S", blankSheet)]⟩ ⟨[("S", blankSheet)]⟩ "S" "B1:A1" true =
      .ok (true, "") :=
  claim_C10 ⟨[("S", blankSheet)]⟩ ⟨[("S", blankSheet)]⟩ "S" "B1:A1" true
    2 1 1 1 blankSheet blankSheet (by decide) (by decide) (by decide) rfl rfl

lemma findSome?_first_eq {α β : Type} (f : α → Option β) (d : α) :
    ∀ (l : List α) (i : ℕ), i < l.length →
      (∀ j, j < i → f (l.getD j d) = none) →
      ∀ m, f (l.getD i d) = some m → l.findSome? f = some m := by
  intro l
  induction l with
  | nil =>
    intro i hi
    simp at hi
  | cons x xs ih =>
    intro i hi hprev m hm
    cases i with
    | zero =>
      rw [List.getD_cons_zero] at hm
      rw [List.findSome?_cons, hm]
    | succ i' =>
      have h0 : f x = none := by
        have h00 := hprev 0 (Nat.succ_pos i')
        rwa [List.getD_cons_zero] at h00
      rw [List.findSome?_cons, h0]
      exact ih i' (by simpa using hi)
        (fun j hj => by simpa using hprev (j + 1) (by omega)) m (by simpa using hm)

/-- C4: `cell_level_compare` returns `(false, "worksheet not found")` whenever
the named sheet is absent from the produced workbook — with no such check on
the ground-truth workbook; otherwise it visits the enumerated cells in
enumeration order, returns the first failing cell's message, and returns
`(true, "")` exactly when every enumerated cell passes. -/
theorem claim_C4 (wb_gt wb_proc : Workbook) (sheet_name cell_range : String)
    (is_CF : Bool) :
    (wb_proc.lookup sheet_name = none →
      cell_level_compare wb_gt wb_proc sheet_name cell_range is_CF =
        .ok (false, "worksheet not found")) ∧
    (∀ ws_proc ws_gt names,
      wb_proc.lookup sheet_name = some ws_proc →
      wb_gt.lookup sheet_name = some ws_gt →
      generate_cell_names cell_range = .ok names →
      ((∀ nm ∈ names,
          compare_one_cell (ws_gt.cells nm) (ws_proc.cells nm) nm is_CF = none) →
        cell_level_compare wb_gt wb_proc sheet_name cell_range is_CF =
          .ok (true, "")) ∧
      (∀ i msg, i < names.length →
        (∀ j, j < i → compare_one_cell (ws_gt.cells (names.getD j ""))
          (ws_proc.cells (names.getD j "")) (names.getD j "") is_CF = none) →
        compare_one_cell (ws_gt.cells (names.getD i ""))
          (ws_proc.cells (names.getD i "")) (names.getD i "") is_CF = some msg →
        cell_level_compare wb_gt wb_proc sheet_name cell_range is_CF =
          .ok (false, msg))) := by
  constructor
  · intro hnone
    simp only [cell_level_compare, hnone]
  · intro ws_proc ws_gt names hproc hgt hgen
    constructor
    · intro hall
      simp only [cell_level_compare, hproc, hgt, hgen]
      rw [List.findSome?_eq_none_iff.mpr hall]
    · intro i msg hi hprev hsome
      simp only [cell_level_compare, hproc, hgt, hgen]
      rw [findSome?_first_eq _ "" names i hi hprev msg hsome]

/-- Witness for C4: a missing produced sheet, an all-pass single-cell range,
and a first-cell value mismatch. -/
theorem claim_C4_witness :
    cell_level_compare ⟨[]⟩ ⟨[]⟩ "S" "A1" false = .ok (false, "worksheet not found") ∧
    cell_level_compare ⟨[("S", blankSheet)]⟩ ⟨[("S", blankSheet)]⟩ "S" "A1" false =
      .ok (true, "") ∧
    cell_level_compare ⟨[("S", constStrSheet "x")]⟩ ⟨[("S", constStrSheet "y")]⟩
      "S" "A1" false =
      .ok (false, "Value difference at cell A1: ws_gt has x,                    ws_proc has y") := by
  refine ⟨(claim_C4 ⟨[]⟩ ⟨[]⟩ "S" "A1" false).1 rfl, ?_, ?_⟩
  · exact ((claim_C4 ⟨[("S", blankSheet)]⟩ ⟨[("S", blankSheet)]⟩ "S" "A1" false).2
      blankSheet blankSheet ["A1"] rfl rfl rfl).1 (by decide)
  · exact ((claim_C4 ⟨[("S", constStrSheet "x")]⟩ ⟨[("S", constStrSheet "y")]⟩
      "S" "A1" false).2 (constStrSheet "y") (constStrSheet "x") ["A1"] rfl rfl rfl).2
      0 "Value difference at cell A1: ws_gt has x,                    ws_proc has y"
      (by decide) (fun j hj => absurd hj (Nat.not_lt_zero j)) (by decide)

lemma splitOnChar_ne_nil (sep : Char) : ∀ l, splitOnChar sep l ≠ [] := by
  intro l
  induction l with
  | nil => simp [splitOnChar]
  | cons c cs ih =>
    simp only [splitOnChar]
    by_cases hc : c = sep
    · simp [hc]
    · rw [if_neg hc]
      cases splitOnChar sep cs <;> simp

lemma splitOnChar_not_mem (sep : Char) :
    ∀ l x, x ∈ splitOnChar sep l → sep ∉ x := by
  intro l
  induction l with
  | nil =>
    intro x hx
    simp [splitOnChar] at hx
    simp [hx]
  | cons c cs ih =>
    intro x hx
    simp only [splitOnChar] at hx
    by_cases hc : c = sep
    · rw [if_pos hc] at hx
      rcases List.mem_cons.mp hx with h | h
      · simp [h]
      · exact ih x h
    · rw [if_neg hc] at hx
      rcases hr : splitOnChar sep cs with _ | ⟨hh, tt⟩
      · exact absurd hr (splitOnChar_ne_nil sep cs)
      · rw [hr] at hx
        rcases List.mem_cons.mp hx with h | h
        · have hsh : sep ∉ hh := ih hh (by rw [hr]; exact List.mem_cons_self hh tt)
          subst h
          intro hmem
          rcases List.mem_cons.mp hmem with h2 | h2
          · exact hc h2.symm
          · exact hsh h2
        · exact ih x (by rw [hr]; exact List.mem_cons_of_mem hh h)

lemma splitOnChar_length (sep : Char) :
    ∀ l, (splitOnChar sep l).length = l.count sep + 1 := by
  intro l
  induction l with
  | nil => simp [splitOnChar]
  | cons c cs ih =>
    simp only [splitOnChar]
    by_cases hc : c = sep
    · subst hc
      simp [List.count_cons, ih]
    · rw [if_neg hc]
      rcases hr : splitOnChar sep cs with _ | ⟨hh, tt⟩
      · exact absurd hr (splitOnChar_ne_nil sep cs)
      · rw [hr] at ih
        simp only [List.length_cons] at ih ⊢
        rw [List.count_cons]
        simp only [beq_iff_eq]
        rw [if_neg hc]
        omega

lemma splitOnChar_of_not_mem (sep : Char) :
    ∀ l, sep ∉ l → splitOnChar sep l = [l] := by
  intro l
  induction l with
  | nil => intro _; rfl
  | cons c cs ih =>
    intro hmem
    have hc : c ≠ sep := fun h => hmem (h ▸ List.mem_cons_self c cs)
    have hcs : sep ∉ cs := fun h => hmem (List.mem_cons_of_mem c h)
    simp only [splitOnChar]
    rw [if_neg hc, ih hcs]

lemma getLastD_mem {α : Type} : ∀ (l : List α) (d : α), l ≠ [] → l.getLastD d ∈ l := by
  intro l
  induction l with
  | nil => intro d h; exact absurd rfl h
  | cons x xs ih =>
    intro d _
    cases hxs : xs with
    | nil => simp [List.getLastD]
    | cons y ys =>
      rw [List.getLastD_cons]
      rw [hxs] at ih
      exact List.mem_cons_of_mem x (ih x (by simp))

lemma segment_ok_of_one_bang (wb : Workbook) (seg : List Char)
    (h : seg.count '!' = 1) :
    ∃ v, segment_sheet_range wb seg = .ok v := by
  have hmem : '!' ∈ seg := by
    have : 0 < seg.count '!' := by omega
    exact List.count_pos_iff.mp this
  have hlen : (splitOnChar '!' seg).length = 2 := by
    rw [splitOnChar_length, h]
  rcases hs : splitOnChar '!' seg with _ | ⟨a, tt⟩
  · exact absurd hs (splitOnChar_ne_nil '!' seg)
  · rcases tt with _ | ⟨b, tt2⟩
    · rw [hs] at hlen; simp at hlen
    · rcases tt2 with _ | ⟨c, tt3⟩
      · refine ⟨(⟨((a.dropWhile fun c => c = Char.ofNat 39).reverse.dropWhile
          fun c => c = Char.ofNat 39).reverse⟩, ⟨b⟩), ?_⟩
        simp only [segment_sheet_range]
        rw [if_pos hmem, hs]
      · rw [hs] at hlen; simp at hlen

lemma last_segment_binding_all_ok (wb : Workbook) :
    ∀ (segs : List (List Char)), segs ≠ [] →
      (∀ s ∈ segs, ∃ v, segment_sheet_range wb s = .ok v) →
      last_segment_binding wb segs = segment_sheet_range wb (segs.getLastD []) := by
  intro segs
  induction segs with
  | nil => intro h; exact absurd rfl h
  | cons s rest ih =>
    intro _ hall
    cases rest with
    | nil => rfl
    | cons s2 r2 =>
      obtain ⟨v, hv⟩ := hall s (List.mem_cons_self s (s2 :: r2))
      simp only [last_segment_binding, hv]
      rw [ih (by simp) (fun x hx => hall x (List.mem_cons_of_mem s hx))]
      congr 1

/-- C5: when `answer_position` is a comma-separated list of two or more
well-formed `sheet!range` segments (exactly one `!` each), the workbook
comparison's verdict equals the verdict on the final segment alone — the
earlier segments have no effect. -/
theorem claim_C5 (wb_gt wb_proc : Workbook) (is_CF : Bool) (pos : String)
    (h2 : 2 ≤ (splitOnChar ',' pos.data).length)
    (hall : ∀ s ∈ splitOnChar ',' pos.data, s.count '!' = 1) :
    compare_workbooks_core wb_gt wb_proc is_CF pos =
      compare_workbooks_core wb_gt wb_proc is_CF
        ⟨(splitOnChar ',' pos.data).getLastD []⟩ := by
  have hne : splitOnChar ',' pos.data ≠ [] := splitOnChar_ne_nil ',' pos.data
  have hok : ∀ s ∈ splitOnChar ',' pos.data, ∃ v, segment_sheet_range wb_gt s = .ok v :=
    fun s hs => segment_ok_of_one_bang wb_gt s (hall s hs)
  have hlast := getLastD_mem (splitOnChar ',' pos.data) [] hne
  have hsplit_last :
      splitOnChar ',' (⟨(splitOnChar ',' pos.data).getLastD []⟩ : String).data =
        [(splitOnChar ',' pos.data).getLastD []] :=
    splitOnChar_of_not_mem ',' _ (splitOnChar_not_mem ',' pos.data _ hlast)
  simp only [compare_workbooks_core, hsplit_last]
  rw [last_segment_binding_all_ok wb_gt (splitOnChar ',' pos.data) hne hok]
  rfl

/-- Witness for C5 on `"A!B1,C!D1"`. -/
theorem claim_C5_witness :
    compare_workbooks_core ⟨[("A", blankSheet)]⟩ ⟨[]⟩ false "A!B1,C!D1" =
      compare_workbooks_core ⟨[("A", blankSheet)]⟩ ⟨[]⟩ false
        ⟨(splitOnChar ',' ("A!B1,C!D1" : String).data).getLastD []⟩ :=
  claim_C5 ⟨[("A", blankSheet)]⟩ ⟨[]⟩ false "A!B1,C!D1" (by decide) (by decide)

lemma roundHalfEven_close (q : ℚ) : |q - (roundHalfEven q : ℚ)| ≤ 1 / 2 := by
  have h0 : (0 : ℚ) ≤ q - ⌊q⌋ := by
    rw [Int.self_sub_floor]
    exact Int.fract_nonneg q
  have h1 : q - ⌊q⌋ < 1 := by
    rw [Int.self_sub_floor]
    exact Int.fract_lt_one q
  simp only [roundHalfEven]
  split_ifs with hlt hgt hev
  · rw [abs_of_nonneg h0]
    linarith
  · push_cast
    rw [abs_of_nonpos (by linarith)]
    linarith
  · have heq : q - (⌊q⌋ : ℚ) = 1 / 2 := le_antisymm (not_lt.mp hgt) (not_lt.mp hlt)
    rw [heq, abs_of_nonneg (by norm_num : (0 : ℚ) ≤ 1 / 2)]
  · have heq : q - (⌊q⌋ : ℚ) = 1 / 2 := le_antisymm (not_lt.mp hgt) (not_lt.mp hlt)
    push_cast
    have hneg : q - ((⌊q⌋ : ℚ) + 1) = -(1 / 2) := by linarith
    rw [hneg, abs_neg, abs_of_nonneg (by norm_num : (0 : ℚ) ≤ 1 / 2)]

/-- C6: a datetime input is normalized to the epoch day-count offset — the
whole-day difference from 1899-12-30T00:00:00 plus the remaining seconds
divided by 86400 — rounded to 0 decimal places: the result is a whole number
within half a day of the exact offset. -/
theorem claim_C6 (ord : ℤ) (sec us : ℕ) :
    transform_value (.datetime ord sec us) =
      .float ((roundHalfEven (datetime_to_float ord sec us) : ℚ)) ∧
    datetime_to_float ord sec us = specEpochDayOffset ord sec us ∧
    (∃ k : ℤ, pyRound (datetime_to_float ord sec us) 0 = (k : ℚ)) ∧
    |datetime_to_float ord sec us -
      (roundHalfEven (datetime_to_float ord sec us) : ℚ)| ≤ 1 / 2 := by
  refine ⟨?_, rfl, ⟨roundHalfEven (datetime_to_float ord sec us), ?_⟩,
    roundHalfEven_close _⟩
  · simp [transform_value, pyRound]
  · simp [pyRound]

/-- C9: the claim says an exception during a task's comparison is recorded as
a failure with no diagnostic message and the batch continues; in the code the
`except` branch leaves the local `message` unbound, so the first such task
aborts the batch with a `NameError`, and a later such task records the stale
message left over from an earlier task. -/
theorem claim_C9 :
    evaluation_records none [.raises] =
      .error "NameError: name message is not defined" ∧
    evaluation_records none [.returns false "stale message", .raises] =
      .ok [⟨some false, "stale message"⟩, ⟨some false, "stale message"⟩] :=
  ⟨rfl, rfl⟩
